import Mathlib

/-!
Verification development for the WritingTools text-capture and replacement
pipeline (`Windows_and_Linux/WritingToolApp.py` and
`Windows_and_Linux/backends/`).  Python source functions are shallowly
embedded as executable Lean definitions: timestamps become rationals,
Python strings become `String` or `List Char`, subprocess and clipboard
effects become explicit state passing, and exceptions become `Except` /
outcome inductives.
-/

namespace WritingTools

/-! ## Spam / debounce guard

Embedding of `WritingToolApp.check_trigger_spam` and the guard portion of
`WritingToolApp.on_hotkey_pressed`.  `TRIGGER_WINDOW`, `MAX_TRIGGERS` and
`HOTKEY_DEBOUNCE_TIME` are the constants set in `WritingToolApp.__init__`;
`check_trigger_spam` is parameterised by window and threshold because they
are instance attributes of the app object. -/

def TRIGGER_WINDOW : ℚ := 3
def MAX_TRIGGERS : ℕ := 3
def HOTKEY_DEBOUNCE_TIME : ℚ := 1/2

/-- `WritingToolApp.check_trigger_spam`: append the current time to
`recent_triggers`, drop entries `t` with `current_time - t > window`, and
report spam when the remaining count reaches `maxTriggers`.  Returns the
result together with the pruned `recent_triggers` list. -/
def check_trigger_spam (window : ℚ) (maxTriggers : ℕ)
    (recent_triggers : List ℚ) (current_time : ℚ) : Bool × List ℚ :=
  let appended := recent_triggers ++ [current_time]
  let kept := appended.filter (fun t => decide (current_time - t ≤ window))
  (decide (maxTriggers ≤ kept.length), kept)

/-- Runs `check_trigger_spam` statefully over a list of trigger times,
starting from a given `recent_triggers` state, collecting each call's
boolean result. -/
def run_trigger_checks (window : ℚ) (maxTriggers : ℕ) :
    List ℚ → List ℚ → List Bool
  | _, [] => []
  | state, t :: rest =>
    let step := check_trigger_spam window maxTriggers state t
    step.1 :: run_trigger_checks window maxTriggers step.2 rest

/-- Specification-side reformulation of the spam check that keeps the whole
trigger history instead of the pruned state: the call at time `t` suppresses
iff at least `maxTriggers` of the triggers so far (including `t`) lie within
`window` of `t`. -/
def spam_spec (window : ℚ) (maxTriggers : ℕ) :
    List ℚ → List ℚ → List Bool
  | _, [] => []
  | history, t :: rest =>
    decide (maxTriggers ≤
        ((history ++ [t]).filter (fun u => decide (t - u ≤ window))).length)
      :: spam_spec window maxTriggers (history ++ [t]) rest

/-- The mutable guard state of the app object touched by
`on_hotkey_pressed`: the `hotkey_processing` concurrency flag, the
`last_hotkey_time` debounce timestamp, and the `recent_triggers` spam
window. -/
structure HotkeyState where
  hotkey_processing : Bool
  last_hotkey_time : ℚ
  recent_triggers : List ℚ
deriving DecidableEq, Repr

/-- How a single hotkey trigger was dispatched by the guard section of
`WritingToolApp.on_hotkey_pressed` (lines 286-311): dropped because a
capture is in flight, dropped by the debounce check, fatal spam exit, or
accepted (the code then goes on to select a backend and capture text). -/
inductive TriggerOutcome where
  | droppedConcurrent
  | droppedDebounce
  | spamExit
  | proceeded
deriving DecidableEq, Repr

/-- Only an accepted trigger starts any capture work. -/
def TriggerOutcome.startsCapture : TriggerOutcome → Bool
  | .proceeded => true
  | _ => false

/-- Guard section of `WritingToolApp.on_hotkey_pressed`: return early if
`hotkey_processing` is set; otherwise reject the trigger when it arrives
within `HOTKEY_DEBOUNCE_TIME` of the previous accepted one (leaving
`last_hotkey_time` and `recent_triggers` untouched); otherwise record the
time, run `check_trigger_spam`, and either exit on spam or proceed to
capture.  On the proceed path the flag is reset at the end of the handler
(line 348). -/
def on_hotkey_pressed (s : HotkeyState) (current_time : ℚ) :
    TriggerOutcome × HotkeyState :=
  if s.hotkey_processing then
    (.droppedConcurrent, s)
  else if current_time - s.last_hotkey_time < HOTKEY_DEBOUNCE_TIME then
    (.droppedDebounce, { s with hotkey_processing := false })
  else
    let s := { s with last_hotkey_time := current_time }
    let step := check_trigger_spam TRIGGER_WINDOW MAX_TRIGGERS
      s.recent_triggers current_time
    if step.1 then
      (.spamExit, { s with hotkey_processing := false,
                           recent_triggers := step.2 })
    else
      (.proceeded, { s with hotkey_processing := false,
                            recent_triggers := step.2 })

/-! ## X11 clipboard capture and paste

Embedding of `backends/x11_backend.py` `X11Backend.get_selected_text` and of
`WritingToolApp._handle_x11_paste`.  Both are straight-line sequences of
clipboard reads/writes, key events and a settle sleep, with no try/finally:
an exception raised at any step propagates (capture) or is caught by the
surrounding handler (paste) without undoing earlier clipboard writes.  The
fault model `fails` says which primitive steps raise; a failing primitive
performs no effect.  The optional `sel` is the text the foreign application
writes to the clipboard in response to the simulated Ctrl+C (applied during
the settle sleep); `none` models no application response, in which case the
cleared clipboard still reads back as the empty string. -/

/-- The primitive steps of `X11Backend.get_selected_text`, in source
order. -/
inductive CaptureStep where
  | backupRead | clearWrite | pressCtrl | pressC | releaseC | releaseCtrl
  | settleSleep | finalRead | restoreWrite
deriving DecidableEq, Repr

/-- `X11Backend.get_selected_text`: back up the clipboard, clear it,
simulate Ctrl+C, sleep 0.2s, read the captured text, write the backup
back, and return the captured text.  Result: (`Except.ok` captured text or
`Except.error` for a propagated exception, final clipboard content). -/
def x11_get_selected_text (fails : CaptureStep → Bool) (sel : Option String)
    (clipboard : String) : Except Unit String × String :=
  if fails .backupRead then (.error (), clipboard) else
  let backup := clipboard
  if fails .clearWrite then (.error (), clipboard) else
  let clipboard := ""
  if fails .pressCtrl then (.error (), clipboard) else
  if fails .pressC then (.error (), clipboard) else
  if fails .releaseC then (.error (), clipboard) else
  if fails .releaseCtrl then (.error (), clipboard) else
  let clipboard := match sel with
    | some s => s
    | none => clipboard
  if fails .settleSleep then (.error (), clipboard) else
  if fails .finalRead then (.error (), clipboard) else
  let text := clipboard
  if fails .restoreWrite then (.error (), clipboard) else
  (.ok text, backup)

/-- The primitive steps of `WritingToolApp._handle_x11_paste`, in source
order. -/
inductive PasteStep where
  | backupRead | copyTextWrite | pressCtrl | pressV | releaseV | releaseCtrl
  | settleSleep | restoreWrite
deriving DecidableEq, Repr

/-- Observable outcome of `_handle_x11_paste`: completed normally, or an
exception was caught by its `except` block, which logs and emits an error
message box (it does not restore the clipboard). -/
inductive PasteOutcome where
  | completed
  | errorMessageShown
deriving DecidableEq, Repr

/-- `WritingToolApp._handle_x11_paste`: back up the clipboard, copy the
generated text, simulate Ctrl+V, sleep 0.2s, write the backup back.  The
whole body is wrapped in try/except; a raised step aborts the rest of the
body and shows an error message.  Result: (outcome, final clipboard
content). -/
def handle_x11_paste (fails : PasteStep → Bool) (text clipboard : String) :
    PasteOutcome × String :=
  if fails .backupRead then (.errorMessageShown, clipboard) else
  let backup := clipboard
  if fails .copyTextWrite then (.errorMessageShown, clipboard) else
  let clipboard := text
  if fails .pressCtrl then (.errorMessageShown, clipboard) else
  if fails .pressV then (.errorMessageShown, clipboard) else
  if fails .releaseV then (.errorMessageShown, clipboard) else
  if fails .releaseCtrl then (.errorMessageShown, clipboard) else
  if fails .settleSleep then (.errorMessageShown, clipboard) else
  if fails .restoreWrite then (.errorMessageShown, clipboard) else
  (.completed, backup)

/-! ## Wayland paste handler

Embedding of `WritingToolApp._handle_wayland_paste` (lines 629-743).  The
clipboard-read thread, the `wl-copy` subprocess, the `pyperclip` fallback
and the two replacement cascades are modelled by environment flags giving
their results; the function body's control flow is transcribed from the
source.  The background restore thread started at the end is modelled as
completing, so the returned clipboard is the content once that thread has
run. -/

/-- Results of the external collaborators consulted by
`_handle_wayland_paste`. -/
structure WaylandPasteEnv where
  /-- the clipboard backup thread read the clipboard within its 2s join
  timeout -/
  backupOk : Bool
  /-- `wl-copy` exists and exited with code 0 -/
  wlCopyOk : Bool
  /-- the `pyperclip.copy` fallback did not raise -/
  pyperclipCopyOk : Bool
  /-- `_try_comprehensive_replacement()` returned True -/
  replacementOk : Bool
  /-- `_try_comprehensive_paste()` returned True -/
  pasteOk : Bool
deriving DecidableEq, Repr

/-- The user-visible message emitted by `_handle_wayland_paste`. -/
inductive WaylandMsg where
  /-- "Text replaced automatically!" -/
  | successMsg
  /-- "Text copied to clipboard! Press Ctrl+V to paste manually." -/
  | manualPasteInfo
  /-- "Failed to copy text to clipboard. Please try again." -/
  | clipboardError
deriving DecidableEq, Repr

/-- `WritingToolApp._handle_wayland_paste`: back up the clipboard
(best-effort, empty on failure), set the clipboard to `text` via `wl-copy`
then `pyperclip`, try the comprehensive replacement (early return on
success, skipping the restore), else the comprehensive paste, message the
user, and finally spawn a best-effort restore of a non-empty backup.
Result: (message shown, clipboard content after the restore thread has
run). -/
def handle_wayland_paste (env : WaylandPasteEnv) (text clipboard : String) :
    WaylandMsg × String :=
  let clipboard_backup := if env.backupOk then clipboard else ""
  let step : Bool × String :=
    if env.wlCopyOk then (true, text)
    else if env.pyperclipCopyOk then (true, text)
    else (false, clipboard)
  let clipboard_success := step.1
  let clipboard := step.2
  if clipboard_success then
    if env.replacementOk then
      (.successMsg, clipboard)
    else
      let msg : WaylandMsg :=
        if env.pasteOk then .successMsg else .manualPasteInfo
      if clipboard_backup ≠ "" then (msg, clipboard_backup)
      else (msg, clipboard)
  else
    if clipboard_backup ≠ "" then (.clipboardError, clipboard_backup)
    else (.clipboardError, clipboard)

/-! ## Session type and backend selection

Embedding of `get_session_type` / `SESSION_TYPE` (WritingToolApp.py lines
31-36) and the backend choice in `on_hotkey_pressed` (lines 319-323).
`SESSION_TYPE = get_session_type()` is evaluated once, at module import;
the hotkey handler consults that module-level constant, not the current
environment.  The trigger-time environment is therefore a parameter the
code never reads. -/

/-- `get_session_type`: read `XDG_SESSION_TYPE` (default "x11") and
lowercase it.  The environment variable value is a `List Char` (`none`
when unset). -/
def get_session_type (xdg_session_type : Option (List Char)) : List Char :=
  (xdg_session_type.getD ("x11".toList)).map Char.toLower

/-- The two capture/replace backends. -/
inductive Backend where
  | x11Backend
  | waylandBackend
deriving DecidableEq, Repr

/-- Backend selection performed on each hotkey trigger (lines 319-323):
`WaylandBackend()` when the module-level `SESSION_TYPE` equals "wayland",
else `X11Backend()`.  `importEnv` is `XDG_SESSION_TYPE` at module import
(baked into `SESSION_TYPE`); `triggerEnv` is its value when the trigger
fires, which the code does not consult. -/
def backend_for_trigger (importEnv triggerEnv : Option (List Char)) :
    Backend :=
  let SESSION_TYPE := get_session_type importEnv
  if SESSION_TYPE = "wayland".toList then .waylandBackend else .x11Backend

/-! ## Capture retry in `_show_popup`

Embedding of the capture portion of `WritingToolApp._show_popup` (lines
350-362) together with `WritingToolApp.get_selected_text` (lines 414-427)
and the X11 backend's settle sleep.  The foreign application is modelled
by `appClipboard : ℚ → String`, the clipboard content it has produced by
the time the settle sleep of the given length has elapsed.  Each capture
attempt records the settle delay it actually slept. -/

/-- The settle sleep hard-coded in `X11Backend.get_selected_text`
(`time.sleep(0.2)`). -/
def X11_SETTLE_DELAY : ℚ := 1/5

/-- `X11Backend.get_selected_text`, reduced to its timing behaviour: sleep
the hard-coded 0.2s, then read whatever the foreign application has put on
the clipboard by then.  Returns (captured text, settle delay slept). -/
def x11_capture_with_settle (appClipboard : ℚ → String) : String × ℚ :=
  (appClipboard X11_SETTLE_DELAY, X11_SETTLE_DELAY)

/-- `WritingToolApp.get_selected_text(self, sleep_duration=0.2)`: selects a
backend and calls its `get_selected_text()`.  The `sleep_duration`
parameter appears in the signature but is never passed on, so the backend
sleeps its own hard-coded delay whatever the caller requested. -/
def app_get_selected_text (appClipboard : ℚ → String)
    (sleep_duration : ℚ) : String × ℚ :=
  x11_capture_with_settle appClipboard

/-- Capture logic of `_show_popup`: one attempt with the default
`sleep_duration`, then, only if it returned the empty string, exactly one
retry with `sleep_duration=0.5`.  Returns the final text and the list of
settle delays actually slept by the attempts, in order. -/
def show_popup_capture (appClipboard : ℚ → String) : String × List ℚ :=
  let first := app_get_selected_text appClipboard (1/5)
  if first.1 = "" then
    let second := app_get_selected_text appClipboard (1/2)
    (second.1, [first.2, second.2])
  else
    (first.1, [first.2])

/-! ## Wayland selection read

Embedding of `WaylandBackend.get_selected_text`
(`backends/wayland_backend.py` lines 267-279). -/

/-- Result of one `subprocess.run` invocation: the process completed with
an exit code and stdout, or the binary was not found. -/
inductive RunResult where
  | completed (returncode : ℕ) (stdout : String)
  | binaryMissing
deriving DecidableEq, Repr

/-- The exception raised by a `subprocess.run(..., check=True)` call. -/
inductive SubprocessError where
  | calledProcessError (returncode : ℕ)
  | fileNotFoundError
deriving DecidableEq, Repr

/-- `subprocess.run(cmd, check=True).stdout`: stdout when the command
exits 0, `CalledProcessError` on a nonzero exit, `FileNotFoundError` when
the binary is missing. -/
def run_checked (r : RunResult) : Except SubprocessError String :=
  match r with
  | .completed 0 out => .ok out
  | .completed (n + 1) _ => .error (.calledProcessError (n + 1))
  | .binaryMissing => .error .fileNotFoundError

/-- `WaylandBackend.get_selected_text`: run `wl-paste --primary` with
`check=True`; only a `CalledProcessError` is caught, in which case plain
`wl-paste` is run (also `check=True`, uncaught).  Any
`FileNotFoundError` propagates. -/
def wayland_get_selected_text (primary regular : RunResult) :
    Except SubprocessError String :=
  match run_checked primary with
  | .ok out => .ok out
  | .error (.calledProcessError _) => run_checked regular
  | .error .fileNotFoundError => .error .fileNotFoundError

/-! ## Streaming output and the sentinel check

Embedding of `WritingToolApp.replace_text` (lines 567-627).  Python
strings are `List Char` here so that the stripping and whitespace-removal
helpers are structurally transparent.  `str.strip()`, `''.join(s.split())`
and `str.rstrip("\n")` become `py_strip`, `remove_whitespace` and
`py_rstrip_newline`. -/

/-- Python `str.strip()`: drop leading and trailing whitespace. -/
def py_strip (s : List Char) : List Char :=
  ((s.dropWhile Char.isWhitespace).reverse.dropWhile Char.isWhitespace).reverse

/-- Python `''.join(s.split())`: the non-whitespace characters of `s`, in
order. -/
def remove_whitespace (s : List Char) : List Char :=
  s.filter (fun c => !c.isWhitespace)

/-- Python `str.rstrip("\n")`: drop trailing newline characters. -/
def py_rstrip_newline (s : List Char) : List Char :=
  (s.reverse.dropWhile (fun c => c == '\n')).reverse

/-- The sentinel the model replies with when the text is incompatible with
the request. -/
def error_message : List Char := "ERROR_TEXT_INCOMPATIBLE_WITH_REQUEST".toList

/-- What one `replace_text` call did with the delivered chunk. -/
inductive ReplaceOutcome where
  /-- falsy / non-string chunk: nothing happens -/
  | noNewText
  /-- accumulated output equals the sentinel: error message box, no paste -/
  | errorShown
  /-- accumulated output may still grow into the sentinel: silently wait -/
  | withheld
  /-- a response window is open: the chunk is appended there -/
  | windowAppended
  /-- the accumulated output (trailing newlines stripped) is pasted -/
  | pasted (cleaned : List Char)
deriving DecidableEq, Repr

/-- `WritingToolApp.replace_text`: append the chunk to `output_queue`;
compare the stripped accumulation with the sentinel (error message box,
early return); silently return while the whitespace-free accumulation is
no longer than the sentinel and is a prefix of the sentinel's
whitespace-free form (the code spells the prefix test as equality with
`clean_error[:len(clean_current)]`); otherwise append to an open response
window, or paste the accumulation with trailing newlines stripped and
reset the queue.  Returns the outcome and the new `output_queue`. -/
def replace_text (has_response_window : Bool) (output_queue new_text : List Char) :
    ReplaceOutcome × List Char :=
  if new_text = [] then (.noNewText, output_queue)
  else
    let queue := output_queue ++ new_text
    let current_output := py_strip queue
    if current_output = error_message then (.errorShown, queue)
    else if current_output.length ≤ error_message.length ∧
        remove_whitespace current_output =
          (remove_whitespace error_message).take
            (remove_whitespace current_output).length then
      (.withheld, queue)
    else if has_response_window then (.windowAppended, queue)
    else (.pasted (py_rstrip_newline queue), [])

/-! ## Keystroke-level typing

Embedding of `WritingToolApp._try_ydotool_key_typing` (lines 1269-1496):
the input ceiling, the static US-layout character-to-keycode table, the
press/release key-event sequence, and the delay-marker insertion loop with
its length cap.  The trailing `subprocess.run(["ydotool", "key"] ++ args)`
is the model boundary: the function's value is the command it would run
(or which early-exit branch it took). -/

/-- `max_length = 2000`: inputs longer than this are truncated. -/
def max_length : ℕ := 2000

/-- `max_sequence_length = 10000`: cap on the generated argument list. -/
def max_sequence_length : ℕ := 10000

/-- The `char_to_keycode` dict, in source order: lowercase and uppercase
letters (same keycodes), digits, then punctuation and control characters.
Characters awkward to write as Lean literals are given by code point:
39 is the single quote, 96 the backtick, 123 and 125 the curly braces,
34 the double quote. -/
def char_to_keycode_table : List (Char × String) :=
  [('a', "30"), ('b', "48"), ('c', "46"), ('d', "32"), ('e', "18"),
   ('f', "33"), ('g', "34"), ('h', "35"), ('i', "23"), ('j', "36"),
   ('k', "37"), ('l', "38"), ('m', "50"), ('n', "49"), ('o', "24"),
   ('p', "25"), ('q', "16"), ('r', "19"), ('s', "31"), ('t', "20"),
   ('u', "22"), ('v', "47"), ('w', "17"), ('x', "45"), ('y', "21"),
   ('z', "44"),
   ('A', "30"), ('B', "48"), ('C', "46"), ('D', "32"), ('E', "18"),
   ('F', "33"), ('G', "34"), ('H', "35"), ('I', "23"), ('J', "36"),
   ('K', "37"), ('L', "38"), ('M', "50"), ('N', "49"), ('O', "24"),
   ('P', "25"), ('Q', "16"), ('R', "19"), ('S', "31"), ('T', "20"),
   ('U', "22"), ('V', "47"), ('W', "17"), ('X', "45"), ('Y', "21"),
   ('Z', "44"),
   ('0', "11"), ('1', "2"), ('2', "3"), ('3', "4"), ('4', "5"),
   ('5', "6"), ('6', "7"), ('7', "8"), ('8', "9"), ('9', "10"),
   (' ', "57"), ('\n', "28"), ('\t', "15"),
   ('.', "52"), (',', "51"), ('/', "53"), (';', "39"),
   (Char.ofNat 39, "40"), ('[', "26"), (']', "27"), ('\\', "43"),
   ('-', "12"), ('=', "13"), (Char.ofNat 96, "41"),
   ('!', "2"), ('@', "3"), ('#', "4"), ('$', "5"), ('%', "6"),
   ('^', "7"), ('&', "8"), ('*', "9"), ('(', "10"), (')', "11"),
   ('_', "12"), ('+', "13"), (Char.ofNat 123, "26"), (Char.ofNat 125, "27"),
   ('|', "43"), (':', "39"), (Char.ofNat 34, "40"), ('<', "51"),
   ('>', "52"), ('?', "53"),
   ('\r', "28")]

/-- `char in char_to_keycode` / `char_to_keycode[char]` as a lookup in the
table. -/
def char_to_keycode (c : Char) : Option String :=
  char_to_keycode_table.lookup c

/-- The key events one character contributes: press (`keycode:1`) then
release (`keycode:0`) for a mapped character, nothing for an unsupported
one (which the source merely logs and skips). -/
def key_events_for (c : Char) : List String :=
  match char_to_keycode c with
  | some keycode => [keycode ++ ":1", keycode ++ ":0"]
  | none => []

/-- The `key_sequence` list built by the first loop of
`_try_ydotool_key_typing`. -/
def key_sequence : List Char → List String
  | [] => []
  | c :: rest => key_events_for c ++ key_sequence rest

/-- The `delayed_sequence` loop: copy each key event, appending the `"5"`
(5 ms) delay marker after the event at every positive index divisible by
10, and break out once the accumulated list exceeds
`max_sequence_length`. -/
def build_delayed_sequence : List String → ℕ → List String → List String
  | [], _, acc => acc
  | a :: rest, i, acc =>
    let acc1 := acc ++ [a]
    let acc2 := if 0 < i ∧ i % 10 = 0 then acc1 ++ ["5"] else acc1
    if max_sequence_length < acc2.length then acc2
    else build_delayed_sequence rest (i + 1) acc2

/-- `delayed_sequence` as built from a key sequence. -/
def delayed_sequence (ks : List String) : List String :=
  build_delayed_sequence ks 0 []

/-- Specification-side delay insertion without the length break: a `"5"`
marker follows the event at every positive index divisible by 10. -/
def insert_delay_markers : List String → ℕ → List String
  | [], _ => []
  | a :: rest, i =>
    (if 0 < i ∧ i % 10 = 0 then [a, "5"] else [a]) ++
      insert_delay_markers rest (i + 1)

/-- What `_try_ydotool_key_typing` does after validation: give up because
no mapped character produced an event, reject an over-long event sequence
(`return False` at the final safety check), or execute
`ydotool key <args>`. -/
inductive TypingAction where
  | noValidSequence
  | sequenceTooLong
  | runKeyCommand (args : List String)
deriving DecidableEq, Repr

/-- `_try_ydotool_key_typing` up to its subprocess call: truncate the text
to `max_length`, build the key sequence (skipping unmapped characters),
bail out if it is empty, insert delay markers under the length cap, and
reject the command only if the capped sequence still exceeds
`max_sequence_length`. -/
def try_ydotool_key_typing (text : List Char) : TypingAction :=
  let text := text.take max_length
  let ks := key_sequence text
  if ks = [] then .noValidSequence
  else
    let ds := delayed_sequence ks
    if max_sequence_length < ds.length then .sequenceTooLong
    else .runKeyCommand ds

/-- A foreign application that needs half a second to answer the simulated
copy: its clipboard write is visible only to reads that waited at least
0.5s. -/
def slow_app_clipboard : ℚ → String :=
  fun settle => if 1/2 ≤ settle then "hello" else ""

/-- Helper: a nonempty string has positive length. -/
lemma one_le_length_of_ne_empty (s : String) (h : s ≠ "") : 1 ≤ s.length := by
  cases s with
  | mk data =>
    cases data with
    | nil => exact absurd rfl h
    | cons a l =>
      show 1 ≤ (a :: l).length
      simp

/-- Helper: a successful association-list lookup returns one of the
stored values. -/
lemma lookup_mem_values (l : List (Char × String)) (c : Char) (v : String)
    (h : l.lookup c = some v) : v ∈ l.map Prod.snd := by
  induction l with
  | nil => simp [List.lookup] at h
  | cons p rest ih =>
    rw [List.lookup] at h
    by_cases hc : (c == p.1) = true
    · rw [hc] at h
      simp at h
      simp [← h]
    · rw [Bool.not_eq_true] at hc
      rw [hc] at h
      simp [ih h]

/-- Helper: every keycode in the table is a nonempty string. -/
lemma table_values_ne_empty :
    ∀ v ∈ char_to_keycode_table.map Prod.snd, v ≠ "" := by decide

/-- Helper: a mapped keycode is nonempty. -/
lemma char_to_keycode_ne_empty {c : Char} {kc : String}
    (h : char_to_keycode c = some kc) : kc ≠ "" :=
  table_values_ne_empty kc (lookup_mem_values _ _ _ h)

/-- Helper: a press/release event string is never the delay marker
(events end in a colon-digit pair, so they are at least three characters
long). -/
lemma mem_key_events_ne_delay {c : Char} {e : String}
    (he : e ∈ key_events_for c) : e ≠ "5" := by
  unfold key_events_for at he
  cases h : char_to_keycode c with
  | none => rw [h] at he; simp at he
  | some kc =>
    rw [h] at he
    have hkc : 1 ≤ kc.length :=
      one_le_length_of_ne_empty kc (char_to_keycode_ne_empty h)
    have hlen : ∀ tag : String, tag.length = 2 → (kc ++ tag).length ≠ 1 := by
      intro tag htag
      rw [String.length_append, htag]
      omega
    have h5len : ("5" : String).length = 1 := rfl
    rcases List.mem_cons.mp he with he | he
    · intro h5
      exact hlen ":1" rfl (by rw [he.symm.trans h5, h5len])
    · rcases List.mem_cons.mp he with he | he
      · intro h5
        exact hlen ":0" rfl (by rw [he.symm.trans h5, h5len])
      · simp at he

/-- Helper: no element of a key sequence is the delay marker. -/
lemma mem_key_sequence_ne_delay {t : List Char} {e : String}
    (he : e ∈ key_sequence t) : e ≠ "5" := by
  induction t with
  | nil => simp [key_sequence] at he
  | cons c rest ih =>
    rw [key_sequence] at he
    rcases List.mem_append.mp he with he | he
    · exact mem_key_events_ne_delay he
    · exact ih he

/-- Helper: the key sequence is the in-order concatenation of each
character's events. -/
lemma key_sequence_eq_flatten (t : List Char) :
    key_sequence t = (t.map key_events_for).flatten := by
  induction t with
  | nil => rfl
  | cons c rest ih => simp [key_sequence, ih]

/-- Helper: unmapped characters contribute nothing — the key sequence of a
text equals that of its mapped characters. -/
lemma key_sequence_skips_unmapped (t : List Char) :
    key_sequence t =
      key_sequence (t.filter (fun c => (char_to_keycode c).isSome)) := by
  induction t with
  | nil => rfl
  | cons c rest ih =>
    cases h : char_to_keycode c with
    | none =>
      rw [key_sequence, List.filter_cons]
      simp only [h, Option.isSome_none, Bool.false_eq_true, if_false]
      simp [key_events_for, h, ih]
    | some kc =>
      rw [key_sequence, List.filter_cons]
      simp only [h, Option.isSome_some, if_true]
      rw [key_sequence, ih]

/-- Helper: one character contributes at most two events. -/
lemma key_events_length_le (c : Char) : (key_events_for c).length ≤ 2 := by
  unfold key_events_for
  cases char_to_keycode c <;> simp

/-- Helper: a mapped character contributes exactly two events. -/
lemma key_events_length_of_mapped {c : Char}
    (h : (char_to_keycode c).isSome) : (key_events_for c).length = 2 := by
  unfold key_events_for
  cases hc : char_to_keycode c
  · rw [hc] at h; simp at h
  · simp

/-- Helper: the key sequence has at most two events per input
character. -/
lemma key_sequence_length_le (t : List Char) :
    (key_sequence t).length ≤ 2 * t.length := by
  induction t with
  | nil => simp [key_sequence]
  | cons c rest ih =>
    rw [key_sequence, List.length_append, List.length_cons]
    have := key_events_length_le c
    omega

/-- Helper: with every character mapped, the key sequence has exactly two
events per character. -/
lemma key_sequence_length_of_mapped {t : List Char}
    (h : ∀ c ∈ t, (char_to_keycode c).isSome) :
    (key_sequence t).length = 2 * t.length := by
  induction t with
  | nil => simp [key_sequence]
  | cons c rest ih =>
    rw [key_sequence, List.length_append, List.length_cons,
      key_events_length_of_mapped (h c (List.mem_cons_self c rest)),
      ih (fun d hd => h d (List.mem_cons_of_mem c hd))]
    ring

/-- Helper: one mapped character suffices for a nonempty key sequence. -/
lemma key_sequence_ne_nil_of_mapped {t : List Char} {c : Char}
    (hc : c ∈ t) (h : (char_to_keycode c).isSome) :
    key_sequence t ≠ [] := by
  induction t with
  | nil => simp at hc
  | cons a rest ih =>
    intro hnil
    rw [key_sequence] at hnil
    rcases List.append_eq_nil.mp hnil with ⟨h1, h2⟩
    rcases List.mem_cons.mp hc with hceq | hcm
    · have h2len := key_events_length_of_mapped (hceq ▸ h)
      rw [h1] at h2len
      simp at h2len
    · exact ih hcm h2

/-- Helper: the delay-insertion loop at most doubles the event count
(each iteration appends one event and at most one marker). -/
lemma build_delayed_length_le :
    ∀ (l : List String) (i : ℕ) (acc : List String),
      (build_delayed_sequence l i acc).length ≤ acc.length + 2 * l.length
  | [], _, acc => by simp [build_delayed_sequence]
  | a :: rest, i, acc => by
    rw [build_delayed_sequence]
    by_cases hd : 0 < i ∧ i % 10 = 0
    · simp only [hd, and_self, if_true]
      by_cases hb : max_sequence_length < ((acc ++ [a]) ++ ["5"]).length
      · rw [if_pos hb]
        simp only [List.length_append, List.length_cons, List.length_nil]
        omega
      · rw [if_neg hb]
        have := build_delayed_length_le rest (i + 1) ((acc ++ [a]) ++ ["5"])
        simp only [List.length_append, List.length_cons, List.length_nil]
          at this ⊢
        omega
    · simp only [hd, if_false]
      by_cases hb : max_sequence_length < (acc ++ [a]).length
      · rw [if_pos hb]
        simp only [List.length_append, List.length_cons, List.length_nil]
        omega
      · rw [if_neg hb]
        have := build_delayed_length_le rest (i + 1) (acc ++ [a])
        simp only [List.length_append, List.length_cons, List.length_nil]
          at this ⊢
        omega

/-- Helper: while the accumulated length stays under the cap, the
delay-insertion loop never breaks and computes the straightforward
marker insertion. -/
lemma build_delayed_eq_insert :
    ∀ (l : List String) (i : ℕ) (acc : List String),
      acc.length + 2 * l.length ≤ max_sequence_length →
      build_delayed_sequence l i acc = acc ++ insert_delay_markers l i
  | [], _, acc, _ => by simp [build_delayed_sequence, insert_delay_markers]
  | a :: rest, i, acc, hbound => by
    rw [build_delayed_sequence, insert_delay_markers]
    have hrest : rest.length + rest.length ≤ max_sequence_length := by
      simp [List.length_cons] at hbound
      omega
    by_cases hd : 0 < i ∧ i % 10 = 0
    · simp only [hd, and_self, if_true]
      have hlen : ((acc ++ [a]) ++ ["5"]).length = acc.length + 2 := by
        simp
      have hnb : ¬ (max_sequence_length < ((acc ++ [a]) ++ ["5"]).length) := by
        rw [hlen]
        simp [List.length_cons] at hbound
        omega
      rw [if_neg hnb, build_delayed_eq_insert rest (i + 1) ((acc ++ [a]) ++ ["5"])
        (by rw [hlen]; simp [List.length_cons] at hbound; omega)]
      simp
    · simp only [hd, if_false]
      have hlen : (acc ++ [a]).length = acc.length + 1 := by simp
      have hnb : ¬ (max_sequence_length < (acc ++ [a]).length) := by
        rw [hlen]
        simp [List.length_cons] at hbound
        omega
      rw [if_neg hnb, build_delayed_eq_insert rest (i + 1) (acc ++ [a])
        (by rw [hlen]; simp [List.length_cons] at hbound; omega)]
      simp

/-- Helper: removing the delay markers recovers the original event
sequence. -/
lemma insert_delay_markers_filter :
    ∀ (l : List String) (i : ℕ), (∀ e ∈ l, e ≠ "5") →
      (insert_delay_markers l i).filter (fun s => s != "5") = l
  | [], _, _ => rfl
  | a :: rest, i, h => by
    rw [insert_delay_markers]
    have ha : (a != "5") = true := by
      simp [bne_iff_ne]
      exact h a (List.mem_cons_self a rest)
    have hrest := insert_delay_markers_filter rest (i + 1)
      (fun e he => h e (List.mem_cons_of_mem a he))
    by_cases hd : 0 < i ∧ i % 10 = 0
    · simp only [hd, and_self, if_true]
      rw [List.filter_append]
      simp [List.filter, ha, hrest]
    · simp only [hd, if_false]
      rw [List.filter_append]
      simp [List.filter, ha, hrest]

/-- C5: for any 1500-character text drawn entirely from the keycode
table, the generated key sequence has exactly two events per character —
a press `keycode:1` followed by a release `keycode:0` — with the
per-character pairs concatenated in input order; the delayed sequence is
exactly that sequence with a `"5"` delay marker after every tenth event
(no truncation occurs), and filtering the markers back out recovers the
event sequence, which `_try_ydotool_key_typing` passes to
`ydotool key`. -/
theorem keystroke_chunking_round_trip :
    ∀ (text : List Char), text.length = 1500 →
      (∀ c ∈ text, (char_to_keycode c).isSome) →
      (key_sequence text).length = 2 * text.length
      ∧ key_sequence text = (text.map key_events_for).flatten
      ∧ (∀ c ∈ text, ∃ kc, char_to_keycode c = some kc ∧
          key_events_for c = [kc ++ ":1", kc ++ ":0"])
      ∧ delayed_sequence (key_sequence text) =
          insert_delay_markers (key_sequence text) 0
      ∧ (delayed_sequence (key_sequence text)).filter (fun s => s != "5") =
          key_sequence text
      ∧ try_ydotool_key_typing text =
          TypingAction.runKeyCommand (delayed_sequence (key_sequence text)) := by
  intro text hlen hmap
  have hkslen : (key_sequence text).length = 2 * text.length :=
    key_sequence_length_of_mapped hmap
  have hbound : ([] : List String).length + 2 * (key_sequence text).length ≤
      max_sequence_length := by
    rw [hkslen, hlen]
    norm_num [max_sequence_length]
  have hins : delayed_sequence (key_sequence text) =
      insert_delay_markers (key_sequence text) 0 := by
    unfold delayed_sequence
    rw [build_delayed_eq_insert _ 0 [] hbound, List.nil_append]
  have hfilter := insert_delay_markers_filter (key_sequence text) 0
    (fun _ he => mem_key_sequence_ne_delay he)
  have hev : ∀ c ∈ text, ∃ kc, char_to_keycode c = some kc ∧
      key_events_for c = [kc ++ ":1", kc ++ ":0"] := by
    intro c hc
    cases h : char_to_keycode c with
    | none =>
      exfalso
      have hs := hmap c hc
      rw [h] at hs
      simp at hs
    | some kc =>
      exact ⟨kc, rfl, by unfold key_events_for; rw [h]⟩
  have htake : text.take max_length = text := by
    apply List.take_of_length_le
    rw [hlen]
    norm_num [max_length]
  have hne : key_sequence text ≠ [] := by
    intro h0
    rw [h0, hlen] at hkslen
    simp at hkslen
  have hds_le : (delayed_sequence (key_sequence text)).length ≤
      max_sequence_length := by
    rw [hins, ← List.nil_append (insert_delay_markers (key_sequence text) 0),
      ← build_delayed_eq_insert _ 0 [] hbound]
    have := build_delayed_length_le (key_sequence text) 0 []
    rw [hkslen, hlen] at this
    simp at this
    calc (build_delayed_sequence (key_sequence text) 0 []).length
        ≤ 2 * (2 * 1500) := by
          simpa using this
      _ ≤ max_sequence_length := by norm_num [max_sequence_length]
  have htry : try_ydotool_key_typing text =
      TypingAction.runKeyCommand (delayed_sequence (key_sequence text)) := by
    simp only [try_ydotool_key_typing, htake]
    rw [if_neg hne, if_neg (not_lt.mpr hds_le)]
  refine ⟨hkslen, key_sequence_eq_flatten text, hev, hins, ?_, htry⟩
  rw [hins]
  exact hfilter

/-- C5 witness: the 1500-fold repetition of the supported character `a`
satisfies the hypotheses, giving exactly 3000 events. -/
theorem keystroke_chunking_round_trip_witness :
    (List.replicate 1500 'a').length = 1500
    ∧ (key_sequence (List.replicate 1500 'a')).length =
        2 * (List.replicate 1500 'a').length := by
  have h1 : (List.replicate 1500 'a').length = 1500 := List.length_replicate 1500 'a'
  have h2 : ∀ c ∈ List.replicate 1500 'a', (char_to_keycode c).isSome := by
    intro c hc
    rw [List.eq_of_mem_replicate hc]
    decide
  exact ⟨h1, (keystroke_chunking_round_trip _ h1 h2).1⟩

/-- C8: for every input, `_try_ydotool_key_typing` builds its event
sequence from at most the first 2000 characters (longer inputs are
truncated, never rejected), unmapped characters contribute no events
while mapped ones still do, the delayed sequence never exceeds the
10000-entry cap — so the over-length error branch is unreachable — and
one mapped character among the first 2000 suffices to reach the
`ydotool key` invocation. -/
theorem typing_input_ceiling :
    ∀ (text : List Char),
      try_ydotool_key_typing text ≠ TypingAction.sequenceTooLong
      ∧ try_ydotool_key_typing text =
          try_ydotool_key_typing (text.take max_length)
      ∧ key_sequence text =
          key_sequence (text.filter (fun c => (char_to_keycode c).isSome))
      ∧ (delayed_sequence (key_sequence (text.take max_length))).length ≤
          max_sequence_length
      ∧ ((∃ c ∈ text.take max_length, (char_to_keycode c).isSome) →
          try_ydotool_key_typing text =
            TypingAction.runKeyCommand
              (delayed_sequence (key_sequence (text.take max_length)))) := by
  intro text
  have htklen : (text.take max_length).length ≤ max_length := by
    exact List.length_take_le max_length text
  have hks_le : (key_sequence (text.take max_length)).length ≤
      2 * max_length := by
    have := key_sequence_length_le (text.take max_length)
    omega
  have hds_le : (delayed_sequence (key_sequence (text.take max_length))).length ≤
      max_sequence_length := by
    unfold delayed_sequence
    have hb := build_delayed_length_le (key_sequence (text.take max_length)) 0 []
    have hc : 2 * (2 * max_length) ≤ max_sequence_length := by
      norm_num [max_length, max_sequence_length]
    simp at hb
    omega
  refine ⟨?_, ?_, key_sequence_skips_unmapped text, hds_le, ?_⟩
  · simp only [try_ydotool_key_typing]
    by_cases hks : key_sequence (text.take max_length) = []
    · rw [if_pos hks]
      simp
    · rw [if_neg hks, if_neg (not_lt.mpr hds_le)]
      simp
  · simp only [try_ydotool_key_typing, List.take_take, min_self]
  · intro hex
    obtain ⟨c, hc, hmap⟩ := hex
    have hne := key_sequence_ne_nil_of_mapped hc hmap
    simp only [try_ydotool_key_typing]
    rw [if_neg hne, if_neg (not_lt.mpr hds_le)]

/-- C8 witness: the two-character input "hi" contains a mapped character,
so the key command is executed. -/
theorem typing_input_ceiling_witness :
    try_ydotool_key_typing ("hi".toList) =
      TypingAction.runKeyCommand
        (delayed_sequence (key_sequence (("hi".toList).take max_length))) := by
  exact (typing_input_ceiling ("hi".toList)).2.2.2.2
    ⟨'h', by decide, by decide⟩

end WritingTools

namespace WritingTools

/-! ## Theorems -/

/-- C7 counterexample: with `XDG_SESSION_TYPE` equal to "x11" at module
load and "wayland" at the later hotkey trigger, the backend chosen for
the trigger is not the one the current environment calls for: the
module-level `SESSION_TYPE` constant, baked in at load time, wins. -/
theorem backend_ignores_trigger_env_counterexample :
    ¬ (backend_for_trigger (some ("x11".toList)) (some ("wayland".toList)) =
        backend_for_trigger (some ("wayland".toList)) (some ("wayland".toList))) := by
  decide

/-- C7 (amended): the session type driving backend selection is computed
once, from the environment at module import, and cached in `SESSION_TYPE`;
the backend chosen on a hotkey trigger depends only on that import-time
value, so a change to `XDG_SESSION_TYPE` between two triggers does not
change the backend chosen for the later trigger. -/
theorem backend_depends_only_on_import_env :
    (∀ (importEnv t₁ t₂ : Option (List Char)),
      backend_for_trigger importEnv t₁ = backend_for_trigger importEnv t₂)
    ∧ (∀ (importEnv triggerEnv : Option (List Char)),
        backend_for_trigger importEnv triggerEnv =
          (if get_session_type importEnv = "wayland".toList then
            Backend.waylandBackend else Backend.x11Backend)) := by
  exact ⟨fun _ _ _ => rfl, fun _ _ => rfl⟩

/-- C1 counterexample: if the simulated `c` key press raises inside
`X11Backend.get_selected_text`, the clipboard — already cleared by the
backup/clear sequence — is never restored: the call ends with an empty
clipboard instead of the original "original" content. -/
theorem x11_capture_exception_skips_restore_counterexample :
    ¬ ((x11_get_selected_text (fun s => decide (s = CaptureStep.pressC))
        none "original").2 = "original") := by
  decide

/-- C1 (amended): on the X11 capture and paste paths the clipboard content
after the call equals the content before it whenever no primitive step
raises; but neither function guards its restore with try/finally, so an
exception raised after the clipboard has been overwritten and before the
restoring write leaves the clipboard unrestored — cleared on the capture
path, still holding the pasted text on the paste path. -/
theorem x11_clipboard_restored_when_no_exception :
    ∀ (sel : Option String) (clip text : String),
      (x11_get_selected_text (fun _ => false) sel clip).2 = clip
      ∧ (x11_get_selected_text (fun _ => false) sel clip).1 =
          Except.ok (sel.getD "")
      ∧ (handle_x11_paste (fun _ => false) text clip).2 = clip
      ∧ (handle_x11_paste (fun _ => false) text clip).1 = PasteOutcome.completed
      ∧ (x11_get_selected_text (fun s => decide (s = CaptureStep.pressC))
          sel clip).2 = ""
      ∧ (handle_x11_paste (fun s => decide (s = PasteStep.pressV))
          text clip).2 = text := by
  intro sel clip text
  refine ⟨?_, ?_, rfl, rfl, rfl, rfl⟩ <;> cases sel <;> rfl

/-- C2 (code bug): when the clipboard backup is non-empty and every
replacement and paste backend fails, `_handle_wayland_paste` tells the
user the generated text is on the clipboard for manual pasting, yet its
final best-effort restore then puts the old clipboard content back,
overwriting the very text the message promised. -/
theorem wayland_manual_paste_message_then_clobbered :
    handle_wayland_paste
        ⟨true, true, true, false, false⟩ "new text" "old clipboard" =
      (WaylandMsg.manualPasteInfo, "old clipboard")
    ∧ ¬ ((handle_wayland_paste
        ⟨true, true, true, false, false⟩ "new text" "old clipboard").2 =
          "new text") := by
  decide

/-- C6 (code bug): against an application that needs 0.5s to answer the
simulated copy, `_show_popup` does retry exactly once after the empty
first capture and passes `sleep_duration=0.5`, but
`WritingToolApp.get_selected_text` never forwards that parameter, so both
attempts sleep the X11 backend's hard-coded 0.2s and the retry captures
nothing. -/
theorem capture_retry_ignores_longer_delay :
    show_popup_capture slow_app_clipboard = ("", [1/5, 1/5]) := by
  norm_num [show_popup_capture, app_get_selected_text,
    x11_capture_with_settle, X11_SETTLE_DELAY, slow_app_clipboard]

/-- Helper refinement: the stateful pruned-window implementation computes,
call by call, the same suppression answers as the full-history
specification, for any nondecreasing sequence of trigger times. -/
lemma run_trigger_checks_eq_spam_spec (window : ℚ) (m : ℕ) :
    ∀ (times history state : List ℚ),
      times.Sorted (· ≤ ·) →
      (∀ u ∈ history, ∀ t ∈ times, u ≤ t) →
      (∀ t ∈ times, state.filter (fun u => decide (t - u ≤ window)) =
        history.filter (fun u => decide (t - u ≤ window))) →
      run_trigger_checks window m state times = spam_spec window m history times
  | [], history, state, _, _, _ => rfl
  | t :: rest, history, state, hsorted, hle, hfil => by
    have hmemt : t ∈ t :: rest := List.mem_cons_self t rest
    have hrest_sorted : rest.Sorted (· ≤ ·) := (List.sorted_cons.mp hsorted).2
    have ht_le : ∀ t' ∈ rest, t ≤ t' := (List.sorted_cons.mp hsorted).1
    have hhead :
        (check_trigger_spam window m state t).1 =
          decide (m ≤ ((history ++ [t]).filter
            (fun u => decide (t - u ≤ window))).length) := by
      simp only [check_trigger_spam, List.filter_append, hfil t hmemt]
    have hkept :
        (check_trigger_spam window m state t).2 =
          (state ++ [t]).filter (fun u => decide (t - u ≤ window)) := rfl
    have hle' : ∀ u ∈ history ++ [t], ∀ t' ∈ rest, u ≤ t' := by
      intro u hu t' ht'
      rcases List.mem_append.mp hu with hu | hu
      · exact hle u hu t' (List.mem_cons_of_mem t ht')
      · rw [List.mem_singleton.mp hu]
        exact ht_le t' ht'
    have hfil' : ∀ t' ∈ rest,
        ((check_trigger_spam window m state t).2).filter
            (fun u => decide (t' - u ≤ window)) =
          (history ++ [t]).filter (fun u => decide (t' - u ≤ window)) := by
      intro t' ht'
      rw [hkept]
      have hcongr : ∀ u ∈ history ++ [t],
          (decide (t' - u ≤ window) && decide (t - u ≤ window)) =
            decide (t' - u ≤ window) := by
        intro u hu
        have hut : u ≤ t := by
          rcases List.mem_append.mp hu with hh | hh
          · exact hle u hh t hmemt
          · exact le_of_eq (List.mem_singleton.mp hh)
        have htt' : t ≤ t' := ht_le t' ht'
        by_cases hp : t' - u ≤ window
        · have hq : t - u ≤ window := le_trans (by linarith) hp
          simp [hp, hq]
        · simp [hp]
      have hstate : state.filter (fun u =>
            decide (t' - u ≤ window) && decide (t - u ≤ window)) =
          history.filter (fun u =>
            decide (t' - u ≤ window) && decide (t - u ≤ window)) := by
        rw [← List.filter_filter, ← List.filter_filter, hfil t hmemt]
      calc ((state ++ [t]).filter (fun u => decide (t - u ≤ window))).filter
              (fun u => decide (t' - u ≤ window))
          = (state ++ [t]).filter (fun u =>
              decide (t' - u ≤ window) && decide (t - u ≤ window)) := by
            rw [List.filter_filter]
        _ = state.filter (fun u =>
              decide (t' - u ≤ window) && decide (t - u ≤ window)) ++
            [t].filter (fun u =>
              decide (t' - u ≤ window) && decide (t - u ≤ window)) := by
            rw [List.filter_append]
        _ = history.filter (fun u =>
              decide (t' - u ≤ window) && decide (t - u ≤ window)) ++
            [t].filter (fun u =>
              decide (t' - u ≤ window) && decide (t - u ≤ window)) := by
            rw [hstate]
        _ = (history ++ [t]).filter (fun u =>
              decide (t' - u ≤ window) && decide (t - u ≤ window)) := by
            rw [List.filter_append]
        _ = (history ++ [t]).filter (fun u => decide (t' - u ≤ window)) :=
            List.filter_congr hcongr
    calc run_trigger_checks window m state (t :: rest)
        = (check_trigger_spam window m state t).1 ::
            run_trigger_checks window m (check_trigger_spam window m state t).2
              rest := rfl
      _ = decide (m ≤ ((history ++ [t]).filter
              (fun u => decide (t - u ≤ window))).length) ::
            spam_spec window m (history ++ [t]) rest := by
          rw [hhead, run_trigger_checks_eq_spam_spec window m rest (history ++ [t])
            (check_trigger_spam window m state t).2 hrest_sorted hle' hfil']
      _ = spam_spec window m history (t :: rest) := rfl

/-- C3: each `check_trigger_spam` call appends the current timestamp,
prunes entries older than the window, and suppresses exactly when at
least the threshold many of the triggers so far fall within the window of
the current one; instantiated at `MAX_TRIGGERS = 3`, `WINDOW = 1.5s`,
triggers at t = 0, 0.5, 1.0 trip suppression on the third call while
triggers at t = 0, 1.0, 2.0 do not. -/
theorem check_trigger_spam_semantics :
    (∀ (window : ℚ) (maxTriggers : ℕ) (times : List ℚ),
      times.Sorted (· ≤ ·) →
      run_trigger_checks window maxTriggers [] times =
        spam_spec window maxTriggers [] times)
    ∧ run_trigger_checks (3/2) 3 [] [0, 1/2, 1] = [false, false, true]
    ∧ run_trigger_checks (3/2) 3 [] [0, 1, 2] = [false, false, false] := by
  refine ⟨?_, ?_, ?_⟩
  · intro window m times hs
    exact run_trigger_checks_eq_spam_spec window m times [] [] hs
      (by simp) (by simp)
  · norm_num [run_trigger_checks, check_trigger_spam, List.filter]
  · norm_num [run_trigger_checks, check_trigger_spam, List.filter]

/-- C3 witness: the refinement instantiated at the sorted trigger times
0, 0.5, 1.0 with the 1.5s window. -/
theorem check_trigger_spam_semantics_witness :
    List.Sorted (· ≤ ·) [(0 : ℚ), 1/2, 1]
    ∧ run_trigger_checks (3/2) 3 [] [0, 1/2, 1] =
        spam_spec (3/2) 3 [] [0, 1/2, 1] := by
  have hs : List.Sorted (· ≤ ·) [(0 : ℚ), 1/2, 1] := by
    norm_num [List.sorted_cons]
  exact ⟨hs, check_trigger_spam_semantics.1 (3/2) 3 _ hs⟩

/-- Helper: a trigger arriving within the debounce interval of the
previous accepted one is dropped, with only the concurrency flag
touched. -/
lemma on_hotkey_pressed_debounced {s : HotkeyState} {t : ℚ}
    (h1 : s.hotkey_processing = false)
    (h2 : t - s.last_hotkey_time < HOTKEY_DEBOUNCE_TIME) :
    on_hotkey_pressed s t =
      (.droppedDebounce, { s with hotkey_processing := false }) := by
  unfold on_hotkey_pressed
  rw [if_neg (by simp [h1]), if_pos h2]

/-- Helper: a trigger outside the debounce interval with the spam check
negative is accepted, recording its time and the pruned window. -/
lemma on_hotkey_pressed_accepted {s : HotkeyState} {t : ℚ}
    (h1 : s.hotkey_processing = false)
    (h2 : ¬ (t - s.last_hotkey_time < HOTKEY_DEBOUNCE_TIME))
    (h3 : (check_trigger_spam TRIGGER_WINDOW MAX_TRIGGERS
        s.recent_triggers t).1 = false) :
    on_hotkey_pressed s t =
      (.proceeded, ⟨false, t, (check_trigger_spam TRIGGER_WINDOW MAX_TRIGGERS
        s.recent_triggers t).2⟩) := by
  unfold on_hotkey_pressed
  rw [if_neg (by simp [h1]), if_neg h2]
  simp only [h3, Bool.false_eq_true, if_false]

/-- Helper: after an accepted trigger at time `t` the guard state is
exactly (flag clear, last time `t`, pruned window). -/
lemma on_hotkey_pressed_proceeded_state {s : HotkeyState} {t : ℚ}
    (hp : (on_hotkey_pressed s t).1 = .proceeded) :
    (on_hotkey_pressed s t).2 =
      ⟨false, t, (check_trigger_spam TRIGGER_WINDOW MAX_TRIGGERS
        s.recent_triggers t).2⟩ := by
  have h1 : s.hotkey_processing = false := by
    by_contra h
    have h1t : s.hotkey_processing = true := by simpa using h
    simp [on_hotkey_pressed, h1t] at hp
  have h2 : ¬ (t - s.last_hotkey_time < HOTKEY_DEBOUNCE_TIME) := by
    intro h
    simp [on_hotkey_pressed, h1, h] at hp
  have h3 : (check_trigger_spam TRIGGER_WINDOW MAX_TRIGGERS
      s.recent_triggers t).1 = false := by
    by_contra h
    have h3t : (check_trigger_spam TRIGGER_WINDOW MAX_TRIGGERS
        s.recent_triggers t).1 = true := by simpa using h
    simp [on_hotkey_pressed, h1, h2, h3t] at hp
  simp [on_hotkey_pressed, h1, h2, h3]

/-- C4: after any accepted trigger at time `t`, a second trigger at
`t + 0.1s` is dropped by the 0.5s debounce check before any capture work
begins, while a second trigger at `t + 0.6s` passes the debounce and is
accepted provided the sliding-window spam count stays below the threshold
(no capture being in flight in either case, since the accepted trigger
cleared the flag). -/
theorem debounce_correct :
    ∀ (s : HotkeyState) (t : ℚ),
      (on_hotkey_pressed s t).1 = TriggerOutcome.proceeded →
      ((on_hotkey_pressed (on_hotkey_pressed s t).2 (t + 1/10)).1 =
          TriggerOutcome.droppedDebounce
        ∧ ((on_hotkey_pressed (on_hotkey_pressed s t).2
            (t + 1/10)).1).startsCapture = false)
      ∧ ((((on_hotkey_pressed s t).2.recent_triggers ++ [t + 3/5]).filter
            (fun u => decide (t + 3/5 - u ≤ TRIGGER_WINDOW))).length <
              MAX_TRIGGERS →
          (on_hotkey_pressed (on_hotkey_pressed s t).2 (t + 3/5)).1 =
            TriggerOutcome.proceeded) := by
  intro s t hp
  rw [on_hotkey_pressed_proceeded_state hp]
  refine ⟨?_, ?_⟩
  · have hstep := on_hotkey_pressed_debounced (s := ⟨false, t,
      (check_trigger_spam TRIGGER_WINDOW MAX_TRIGGERS s.recent_triggers t).2⟩)
      (t := t + 1/10) rfl (by ring_nf; norm_num [HOTKEY_DEBOUNCE_TIME])
    rw [hstep]
    exact ⟨rfl, rfl⟩
  · intro hspam
    have hstep := on_hotkey_pressed_accepted (s := ⟨false, t,
      (check_trigger_spam TRIGGER_WINDOW MAX_TRIGGERS s.recent_triggers t).2⟩)
      (t := t + 3/5) rfl (by ring_nf; norm_num [HOTKEY_DEBOUNCE_TIME])
      (by simp only [check_trigger_spam, decide_eq_false_iff_not]
          exact fun hle => absurd hle (by exact Nat.not_le_of_lt hspam))
    rw [hstep]

/-- C4 witness: from the idle initial state, a trigger at t = 10s is
accepted, a follow-up at 10.1s is debounced, and a follow-up at 10.6s is
accepted. -/
theorem debounce_correct_witness :
    (on_hotkey_pressed ⟨false, 0, []⟩ 10).1 = TriggerOutcome.proceeded
    ∧ (on_hotkey_pressed (on_hotkey_pressed ⟨false, 0, []⟩ 10).2
        (10 + 1/10)).1 = TriggerOutcome.droppedDebounce
    ∧ (on_hotkey_pressed (on_hotkey_pressed ⟨false, 0, []⟩ 10).2
        (10 + 3/5)).1 = TriggerOutcome.proceeded := by
  have hp : (on_hotkey_pressed ⟨false, 0, []⟩ 10).1 =
      TriggerOutcome.proceeded := by
    norm_num [on_hotkey_pressed, check_trigger_spam, HOTKEY_DEBOUNCE_TIME,
      TRIGGER_WINDOW, MAX_TRIGGERS, List.filter]
  have hspam : (((on_hotkey_pressed ⟨false, 0, []⟩ 10).2.recent_triggers
      ++ [(10 : ℚ) + 3/5]).filter
      (fun u => decide ((10 : ℚ) + 3/5 - u ≤ TRIGGER_WINDOW))).length <
        MAX_TRIGGERS := by
    rw [on_hotkey_pressed_proceeded_state hp]
    norm_num [check_trigger_spam, TRIGGER_WINDOW, MAX_TRIGGERS, List.filter]
  exact ⟨hp, (debounce_correct _ _ hp).1.1, (debounce_correct _ _ hp).2 hspam⟩

/-- Helper: dropping a whitespace run does not change the non-whitespace
characters. -/
lemma remove_whitespace_dropWhile (s : List Char) :
    remove_whitespace (s.dropWhile Char.isWhitespace) = remove_whitespace s := by
  induction s with
  | nil => rfl
  | cons c rest ih =>
    by_cases h : c.isWhitespace
    · simp [List.dropWhile, remove_whitespace, List.filter, h] at ih ⊢
      exact ih
    · simp [List.dropWhile, remove_whitespace, List.filter,
        Bool.not_eq_true] at h ⊢
      simp [h]

/-- Helper: whitespace removal commutes with reversal. -/
lemma remove_whitespace_reverse (s : List Char) :
    remove_whitespace s.reverse = (remove_whitespace s).reverse := by
  simp [remove_whitespace, List.filter_reverse]

/-- Helper: stripping ends does not change the non-whitespace
characters. -/
lemma remove_whitespace_py_strip (s : List Char) :
    remove_whitespace (py_strip s) = remove_whitespace s := by
  unfold py_strip
  rw [remove_whitespace_reverse, remove_whitespace_dropWhile,
    remove_whitespace_reverse, List.reverse_reverse,
    remove_whitespace_dropWhile]

/-- Helper: `dropWhile` never lengthens a list. -/
lemma length_dropWhile_le (p : Char → Bool) (s : List Char) :
    (s.dropWhile p).length ≤ s.length := by
  induction s with
  | nil => simp [List.dropWhile]
  | cons c rest ih =>
    by_cases h : p c
    · simp only [List.dropWhile, h]
      exact le_trans ih (Nat.le_succ _)
    · simp [List.dropWhile, h]

/-- Helper: stripping never lengthens a string. -/
lemma py_strip_length_le (s : List Char) : (py_strip s).length ≤ s.length := by
  unfold py_strip
  calc ((s.dropWhile Char.isWhitespace).reverse.dropWhile
        Char.isWhitespace).reverse.length
      = ((s.dropWhile Char.isWhitespace).reverse.dropWhile
        Char.isWhitespace).length := by rw [List.length_reverse]
    _ ≤ (s.dropWhile Char.isWhitespace).reverse.length :=
        length_dropWhile_le _ _
    _ = (s.dropWhile Char.isWhitespace).length := by rw [List.length_reverse]
    _ ≤ s.length := length_dropWhile_le _ _

/-- C9: when the stripped accumulated output equals the sentinel
`ERROR_TEXT_INCOMPATIBLE_WITH_REQUEST`, `replace_text` shows the error
message box and never pastes; and whenever the accumulated output is no
longer than the sentinel and its non-whitespace characters are an initial
segment of the sentinel's (the code's `clean_error[:len(clean_current)]`
comparison), the chunk is silently withheld from pasting — so a short
legitimate output such as "ERROR" is never pasted. -/
theorem replace_text_sentinel :
    (∀ (w : Bool) (queue chunk : List Char), chunk ≠ [] →
      py_strip (queue ++ chunk) = error_message →
      (replace_text w queue chunk).1 = ReplaceOutcome.errorShown
      ∧ (∀ cleaned, (replace_text w queue chunk).1 ≠
          ReplaceOutcome.pasted cleaned))
    ∧ (∀ (w : Bool) (queue chunk : List Char), chunk ≠ [] →
        ¬ (py_strip (queue ++ chunk) = error_message) →
        (queue ++ chunk).length ≤ error_message.length →
        remove_whitespace (queue ++ chunk) =
          (remove_whitespace error_message).take
            (remove_whitespace (queue ++ chunk)).length →
        (replace_text w queue chunk).1 = ReplaceOutcome.withheld) := by
  constructor
  · intro w queue chunk hne hsent
    unfold replace_text
    rw [if_neg hne]
    simp only []
    rw [if_pos hsent]
    exact ⟨rfl, fun cleaned h => by simp at h⟩
  · intro w queue chunk hne hnsent hlen hpre
    have hlen' : (py_strip (queue ++ chunk)).length ≤ error_message.length :=
      le_trans (py_strip_length_le _) hlen
    have hpre' : remove_whitespace (py_strip (queue ++ chunk)) =
        (remove_whitespace error_message).take
          (remove_whitespace (py_strip (queue ++ chunk))).length := by
      rw [remove_whitespace_py_strip]
      exact hpre
    unfold replace_text
    rw [if_neg hne]
    simp only []
    rw [if_neg hnsent, if_pos ⟨hlen', hpre'⟩]

/-- C9 witness: delivering the single chunk "ERROR" into an empty queue is
silently withheld, not pasted. -/
theorem replace_text_sentinel_witness :
    (replace_text false [] ("ERROR".toList)).1 = ReplaceOutcome.withheld := by
  exact replace_text_sentinel.2 false [] ("ERROR".toList)
    (by decide) (by decide) (by decide) (by decide)

/-- C10: `WaylandBackend.get_selected_text` returns the primary-selection
read verbatim whenever `wl-paste --primary` exits 0; exactly on a nonzero
exit it falls back to the plain `wl-paste` clipboard read (so a stale
clipboard can be presented as the selection); and a missing `wl-paste`
binary raises `FileNotFoundError` instead of returning an empty string. -/
theorem wayland_selection_fallback_semantics :
    ∀ (out : String) (regular : RunResult),
      wayland_get_selected_text (RunResult.completed 0 out) regular =
        Except.ok out
      ∧ (∀ (n : ℕ),
          wayland_get_selected_text (RunResult.completed (n + 1) out) regular =
            run_checked regular)
      ∧ (∀ (n : ℕ) (stale : String),
          wayland_get_selected_text (RunResult.completed (n + 1) out)
            (RunResult.completed 0 stale) = Except.ok stale)
      ∧ wayland_get_selected_text RunResult.binaryMissing regular =
          Except.error SubprocessError.fileNotFoundError := by
  exact fun out regular => ⟨rfl, fun _ => rfl, fun _ _ => rfl, rfl⟩
